import Mathlib

/-!
# Input sequencer of `switch_controller_util.cpp`

Every routine of the file drives three external collaborators: the controller
sink `SwitchController()`, the timing primitive `delay` and the RX LED macros.
The embedding records each call to a collaborator, in program order, as one
`Event`; a routine is the list of events it issues.
-/

namespace SwitchControllerUtil

/-- Calls a routine can make on its collaborators.  `Button` and `Dpad` are the
enumerations of the controller library; their declarations are not part of the
file, so they are type parameters.  A `delay` event carries the value of the
argument expression at the call site. -/
inductive Event (Button Dpad : Type) where
  | pressButton (button : Button)
  | releaseButton (button : Button)
  | pressDpad (button : Dpad)
  | releaseDpad
  | setStickTiltRatio (lx ly rx ry : Int)
  | delay (msec : Int)
  | RXLED1
  | RXLED0
  deriving DecidableEq, Repr

/-- Width of the platform type `int`.  The file mixes `int` with the
`uint16_t` constant `DEFAULT_DELAY_MSEC`; whether that constant is promoted to
`int` depends on the width, which the build target fixes. -/
inductive IntSize where
  | i16
  | i32
  deriving DecidableEq, Repr

/-- Number of bits of `int`. -/
def IntSize.bits : IntSize → Nat
  | .i16 => 16
  | .i32 => 32

/-- Largest value of `int`. -/
def INT_MAX (p : IntSize) : Int := 2 ^ (p.bits - 1) - 1

/-- Smallest value of `int`. -/
def INT_MIN (p : IntSize) : Int := -(2 ^ (p.bits - 1))

/-- The value `v` is representable in `int`. -/
def IsInt (p : IntSize) (v : Int) : Prop := INT_MIN p ≤ v ∧ v ≤ INT_MAX p

instance (p : IntSize) (v : Int) : Decidable (IsInt p v) := by
  unfold IsInt; infer_instance

/-- Source line 10: `const uint16_t DEFAULT_DELAY_MSEC = 100;`. -/
def DEFAULT_DELAY_MSEC : Int := 100

/-- Value of the expression `DEFAULT_DELAY_MSEC / 2`: both operands are
non-negative, so the quotient is the same under either conversion. -/
def halfDelay : Int := DEFAULT_DELAY_MSEC / 2

/-- Value of the expression `tilting_time_msec / DEFAULT_DELAY_MSEC`
(`int` divided by `uint16_t`).  With a 16-bit `int` the constant has type
`unsigned int`, the `int` operand is converted to `unsigned int` (modulo
`2 ^ 16`) and the division is unsigned.  With a wider `int` the constant is
promoted to `int` and the division is signed, truncating toward zero. -/
def mashLoopBound (p : IntSize) (tilting_time_msec : Int) : Int :=
  match p with
  | .i16 => (tilting_time_msec % 2 ^ 16) / DEFAULT_DELAY_MSEC
  | .i32 => Int.tdiv tilting_time_msec DEFAULT_DELAY_MSEC

section Routines

variable {Button Dpad : Type}

/-- Loop `for (int i = 0; i < bound; i++) { body }`, entered with counter `i`.
The counter stays in `0 .. bound`, so it never overflows and its conversion to
`unsigned int` in the comparison of the mash loops leaves it unchanged. -/
def forLoop (bound : Int) (body : List (Event Button Dpad)) (i : Int) :
    List (Event Button Dpad) :=
  if i < bound then body ++ forLoop bound body (i + 1) else []
termination_by (bound - i).toNat
decreasing_by omega

/-- Source lines 19-26. -/
def pushButton (button : Button) (wait_msec loop_count : Int) :
    List (Event Button Dpad) :=
  forLoop loop_count
    [.pressButton button, .delay DEFAULT_DELAY_MSEC,
     .releaseButton button, .delay wait_msec] 0

/-- Source lines 36-44. -/
def pushDpad (button : Dpad) (wait_msec pushing_time_msec loop_count : Int) :
    List (Event Button Dpad) :=
  forLoop loop_count
    [.pressDpad button, .delay pushing_time_msec,
     .releaseDpad, .delay wait_msec] 0

/-- Source lines 55-60. -/
def tiltJoystick (lx ly rx ry tilting_time_msec : Int) :
    List (Event Button Dpad) :=
  [.setStickTiltRatio lx ly rx ry, .delay tilting_time_msec,
   .setStickTiltRatio 0 0 0 0, .delay DEFAULT_DELAY_MSEC]

/-- Source lines 69-74. -/
def tiltLeftJoystick (lx ly tilting_time_msec : Int) :
    List (Event Button Dpad) :=
  [.setStickTiltRatio lx ly 0 0, .delay tilting_time_msec,
   .setStickTiltRatio 0 0 0 0, .delay DEFAULT_DELAY_MSEC]

/-- Source lines 83-88. -/
def tiltRightJoystick (rx ry tilting_time_msec : Int) :
    List (Event Button Dpad) :=
  [.setStickTiltRatio 0 0 rx ry, .delay tilting_time_msec,
   .setStickTiltRatio 0 0 0 0, .delay DEFAULT_DELAY_MSEC]

/-- Source lines 100-111. -/
def tiltJoystickAsMashButton (p : IntSize) (lx ly rx ry : Int) (button : Button)
    (tilting_time_msec : Int) : List (Event Button Dpad) :=
  [.setStickTiltRatio lx ly rx ry]
    ++ forLoop (mashLoopBound p tilting_time_msec)
        [.pressButton button, .delay halfDelay,
         .releaseButton button, .delay halfDelay] 0
    ++ [.setStickTiltRatio 0 0 0 0, .delay DEFAULT_DELAY_MSEC]

/-- Source lines 121-132. -/
def tiltLeftJoystickAsMashButton (p : IntSize) (lx ly : Int) (button : Button)
    (tilting_time_msec : Int) : List (Event Button Dpad) :=
  [.setStickTiltRatio lx ly 0 0]
    ++ forLoop (mashLoopBound p tilting_time_msec)
        [.pressButton button, .delay halfDelay,
         .releaseButton button, .delay halfDelay] 0
    ++ [.setStickTiltRatio 0 0 0 0, .delay DEFAULT_DELAY_MSEC]

/-- Source lines 142-153. -/
def tiltRightJoystickAsMashButton (p : IntSize) (rx ry : Int) (button : Button)
    (tilting_time_msec : Int) : List (Event Button Dpad) :=
  [.setStickTiltRatio 0 0 rx ry]
    ++ forLoop (mashLoopBound p tilting_time_msec)
        [.pressButton button, .delay halfDelay,
         .releaseButton button, .delay halfDelay] 0
    ++ [.setStickTiltRatio 0 0 0 0, .delay DEFAULT_DELAY_MSEC]

/-- Source lines 160-167. -/
def flash (count : Int) : List (Event Button Dpad) :=
  forLoop count
    [.RXLED1, .delay DEFAULT_DELAY_MSEC, .RXLED0, .delay DEFAULT_DELAY_MSEC] 0

end Routines

/-! ## Observations on event lists -/

section Observers

variable {Button Dpad : Type}

/-- The list `body` written `n` times in a row. -/
def repeatTrace (n : Nat) (body : List (Event Button Dpad)) :
    List (Event Button Dpad) :=
  match n with
  | 0 => []
  | k + 1 => body ++ repeatTrace k body

/-- Sum of the arguments of all `delay` calls of an event list. -/
def totalDelay : List (Event Button Dpad) → Int
  | [] => 0
  | .delay d :: rest => d + totalDelay rest
  | _ :: rest => totalDelay rest

/-- The event is a button press or release. -/
def isButtonEvent : Event Button Dpad → Bool
  | .pressButton _ => true
  | .releaseButton _ => true
  | _ => false

/-- The event is a D-pad press or release. -/
def isDpadEvent : Event Button Dpad → Bool
  | .pressDpad _ => true
  | .releaseDpad => true
  | _ => false

/-- The event is a set-displacement call. -/
def isStickEvent : Event Button Dpad → Bool
  | .setStickTiltRatio _ _ _ _ => true
  | _ => false

/-- The event is a call on the controller sink (button, D-pad or stick). -/
def isControllerEvent (e : Event Button Dpad) : Bool :=
  isButtonEvent e || isDpadEvent e || isStickEvent e

/-- The event is a switch of the RX LED. -/
def isLedEvent : Event Button Dpad → Bool
  | .RXLED1 => true
  | .RXLED0 => true
  | _ => false

/-- Events that follow the first set-displacement call. -/
def afterFirstStick : List (Event Button Dpad) → List (Event Button Dpad)
  | [] => []
  | .setStickTiltRatio _ _ _ _ :: rest => rest
  | _ :: rest => afterFirstStick rest

/-- Sum of the delays issued before the next set-displacement call. -/
def delayUntilStick : List (Event Button Dpad) → Int
  | [] => 0
  | .setStickTiltRatio _ _ _ _ :: _ => 0
  | .delay d :: rest => d + delayUntilStick rest
  | _ :: rest => delayUntilStick rest

/-- Stick hold time: the delays issued between the first set-displacement call
and the set-displacement call that follows it (the reset to zero). -/
def holdTime (tr : List (Event Button Dpad)) : Int :=
  delayUntilStick (afterFirstStick tr)

/-- Stick displacement recorded by the sink. -/
structure StickState where
  lx : Int
  ly : Int
  rx : Int
  ry : Int
  deriving DecidableEq, Repr

/-- Both sticks at rest. -/
def StickState.neutral : StickState := ⟨0, 0, 0, 0⟩

/-- Modelled from the spec: the class behind `SwitchController()` is not part
of the file.  The sink records the stick displacement it was last given:
`setStickTiltRatio` stores its four arguments and no other call touches the
sticks. -/
def sinkStep (s : StickState) : Event Button Dpad → StickState
  | .setStickTiltRatio lx ly rx ry => ⟨lx, ly, rx, ry⟩
  | _ => s

/-- Recorded stick state after the sink received all events of a list. -/
def sinkRun (s : StickState) (tr : List (Event Button Dpad)) : StickState :=
  tr.foldl sinkStep s

/-- An event list keeps the sticks at rest: every set-displacement call in it
carries `(0, 0, 0, 0)`, and a sink that starts at rest is at rest after every
prefix of the list, the whole list included. -/
def KeepsNeutral (tr : List (Event Button Dpad)) : Prop :=
  (∀ e ∈ tr, ∀ lx ly rx ry : Int,
      e = .setStickTiltRatio lx ly rx ry → lx = 0 ∧ ly = 0 ∧ rx = 0 ∧ ry = 0)
    ∧ (∀ k : Nat, sinkRun StickState.neutral (tr.take k) = StickState.neutral)
    ∧ sinkRun StickState.neutral tr = StickState.neutral

end Observers

/-! ## Auxiliary lemmas -/

section Lemmas

variable {Button Dpad : Type}

theorem forLoop_eq_repeatTrace (bound : Int) (body : List (Event Button Dpad))
    (i : Int) : forLoop bound body i = repeatTrace (bound - i).toNat body := by
  generalize hk : (bound - i).toNat = k
  induction k generalizing i with
  | zero =>
    rw [forLoop, if_neg (by omega)]
    rfl
  | succ k ih =>
    rw [forLoop, if_pos (by omega), ih (i + 1) (by omega)]
    rfl

theorem forLoop_zero (bound : Int) (body : List (Event Button Dpad)) :
    forLoop bound body 0 = repeatTrace bound.toNat body := by
  rw [forLoop_eq_repeatTrace, sub_zero]

theorem totalDelay_append (xs ys : List (Event Button Dpad)) :
    totalDelay (xs ++ ys) = totalDelay xs + totalDelay ys := by
  induction xs with
  | nil => simp [totalDelay]
  | cons e rest ih => cases e <;> simp [totalDelay, ih, add_assoc]

theorem totalDelay_repeatTrace (n : Nat) (body : List (Event Button Dpad)) :
    totalDelay (repeatTrace n body) = n * totalDelay body := by
  induction n with
  | zero => simp [repeatTrace, totalDelay]
  | succ k ih =>
    simp only [repeatTrace, totalDelay_append, ih]
    push_cast
    ring

theorem count_repeatTrace [DecidableEq Button] [DecidableEq Dpad] (n : Nat)
    (body : List (Event Button Dpad)) (e : Event Button Dpad) :
    (repeatTrace n body).count e = n * body.count e := by
  induction n with
  | zero => simp [repeatTrace]
  | succ k ih =>
    simp only [repeatTrace, List.count_append, ih]
    ring

theorem filter_repeatTrace (f : Event Button Dpad → Bool) (n : Nat)
    (body : List (Event Button Dpad)) :
    (repeatTrace n body).filter f = repeatTrace n (body.filter f) := by
  induction n with
  | zero => simp [repeatTrace]
  | succ k ih => simp only [repeatTrace, List.filter_append, ih]

theorem mem_repeatTrace {n : Nat} {body : List (Event Button Dpad)}
    {e : Event Button Dpad} (h : e ∈ repeatTrace n body) : e ∈ body := by
  induction n with
  | zero => simp [repeatTrace] at h
  | succ k ih =>
    simp only [repeatTrace, List.mem_append] at h
    rcases h with h | h
    · exact h
    · exact ih h

theorem halfDelay_eq : halfDelay = 50 := by decide

theorem mashLoopBound_of_nonneg (p : IntSize) (t : Int) (hint : IsInt p t)
    (ht : 0 ≤ t) : mashLoopBound p t = t / 100 := by
  cases p with
  | i16 =>
    have hmax : t ≤ 2 ^ 15 - 1 := hint.2
    have hmod : t % 2 ^ 16 = t := Int.emod_eq_of_lt ht (by omega)
    simp only [mashLoopBound, DEFAULT_DELAY_MSEC, hmod]
  | i32 =>
    simp only [mashLoopBound, DEFAULT_DELAY_MSEC]
    exact Int.tdiv_eq_ediv ht (by decide)

theorem mashLoopBound_i32_nonpos (t : Int) (ht : t < 100) :
    mashLoopBound .i32 t ≤ 0 := by
  simp only [mashLoopBound, DEFAULT_DELAY_MSEC]
  by_cases h0 : 0 ≤ t
  · rw [Int.tdiv_eq_zero_of_lt h0 ht]
  · have hneg : t.tdiv 100 = -((-t).tdiv 100) := by
      rw [Int.neg_tdiv, neg_neg]
    have hpos : 0 ≤ (-t).tdiv 100 := Int.tdiv_nonneg (by omega) (by decide)
    omega

/-- Event list of `tiltJoystickAsMashButton` in terms of its loop bound. -/
theorem mash_shape (p : IntSize) (lx ly rx ry : Int) (b : Button) (t : Int) :
    (tiltJoystickAsMashButton p lx ly rx ry b t : List (Event Button Dpad))
      = [.setStickTiltRatio lx ly rx ry]
          ++ repeatTrace (mashLoopBound p t).toNat
              [.pressButton b, .delay 50, .releaseButton b, .delay 50]
          ++ [.setStickTiltRatio 0 0 0 0, .delay 100] := by
  unfold tiltJoystickAsMashButton
  rw [forLoop_zero, halfDelay_eq]
  rfl

theorem delayUntilStick_mash (k : Nat) (b : Button)
    (rest : List (Event Button Dpad)) :
    delayUntilStick
        (repeatTrace k [.pressButton b, .delay 50, .releaseButton b, .delay 50]
          ++ (.setStickTiltRatio 0 0 0 0 :: rest))
      = 100 * (k : Int) := by
  induction k with
  | zero => simp [repeatTrace, delayUntilStick]
  | succ k ih =>
    have hstep : delayUntilStick
        (repeatTrace (k + 1)
            [.pressButton b, .delay 50, .releaseButton b, .delay 50]
          ++ (.setStickTiltRatio 0 0 0 0 :: rest))
        = 50 + (50 + delayUntilStick
            (repeatTrace k [.pressButton b, .delay 50, .releaseButton b, .delay 50]
              ++ (.setStickTiltRatio 0 0 0 0 :: rest))) := rfl
    rw [hstep, ih]
    push_cast
    ring

theorem holdTime_mash (p : IntSize) (lx ly rx ry : Int) (b : Button) (t : Int) :
    holdTime (tiltJoystickAsMashButton p lx ly rx ry b t : List (Event Button Dpad))
      = 100 * ((mashLoopBound p t).toNat : Int) := by
  rw [mash_shape]
  simp only [holdTime, List.cons_append, List.nil_append, List.append_assoc,
    afterFirstStick]
  exact delayUntilStick_mash _ b _

theorem sinkRun_neutral_of_forall (tr : List (Event Button Dpad))
    (h : ∀ e ∈ tr, ∀ lx ly rx ry : Int,
      e = .setStickTiltRatio lx ly rx ry → lx = 0 ∧ ly = 0 ∧ rx = 0 ∧ ry = 0) :
    sinkRun StickState.neutral tr = StickState.neutral := by
  induction tr with
  | nil => rfl
  | cons e rest ih =>
    have hrest := ih (fun x hx => h x (List.mem_cons_of_mem _ hx))
    have he := h e (List.mem_cons_self _ _)
    unfold sinkRun at hrest ⊢
    cases e with
    | setStickTiltRatio a b c d =>
      obtain ⟨ha, hb, hc, hd⟩ := he a b c d rfl
      subst ha hb hc hd
      exact hrest
    | _ => exact hrest

theorem keepsNeutral_of_forall (tr : List (Event Button Dpad))
    (h : ∀ e ∈ tr, ∀ lx ly rx ry : Int,
      e = .setStickTiltRatio lx ly rx ry → lx = 0 ∧ ly = 0 ∧ rx = 0 ∧ ry = 0) :
    KeepsNeutral tr :=
  ⟨h, fun _ => sinkRun_neutral_of_forall _
      (fun e he => h e (List.mem_of_mem_take he)),
    sinkRun_neutral_of_forall tr h⟩

theorem keepsNeutral_mash (k : Nat) (b : Button) :
    KeepsNeutral
      (([.setStickTiltRatio 0 0 0 0] : List (Event Button Dpad))
        ++ repeatTrace k
            [.pressButton b, .delay halfDelay, .releaseButton b, .delay halfDelay]
        ++ [.setStickTiltRatio 0 0 0 0, .delay DEFAULT_DELAY_MSEC]) := by
  apply keepsNeutral_of_forall
  intro e he lx ly rx ry heq
  simp only [List.mem_append, List.mem_cons, List.mem_singleton,
    List.not_mem_nil, or_false] at he
  rcases he with (h | h) | h | h
  · rw [h] at heq
    cases heq
    exact ⟨rfl, rfl, rfl, rfl⟩
  · have hmem := mem_repeatTrace h
    simp only [List.mem_cons, List.mem_singleton, List.not_mem_nil, or_false] at hmem
    rcases hmem with h | h | h | h <;> rw [h] at heq <;> cases heq
  · rw [h] at heq
    cases heq
    exact ⟨rfl, rfl, rfl, rfl⟩
  · rw [h] at heq
    cases heq

end Lemmas

/-! ## Button, D-pad and LED trains -/

section Trains

variable {Button Dpad : Type}

/-- C1: for every button `b`, every `wait_msec` `w` and every `loop_count`
`n >= 0`, `pushButton b w n` issues exactly `n` repetitions of
`[pressButton b, delay 100, releaseButton b, delay w]`; hence `n` presses and
`n` releases of `b`, alternating press-then-release, no event for another
button, and delays that sum to `n * (100 + w)`. -/
theorem pushButton_trace [DecidableEq Button] [DecidableEq Dpad]
    (b : Button) (w n : Int) (hn : 0 ≤ n) :
    (pushButton b w n : List (Event Button Dpad))
        = repeatTrace n.toNat
            [.pressButton b, .delay 100, .releaseButton b, .delay w]
      ∧ (((pushButton b w n : List (Event Button Dpad)).count
            (.pressButton b) : Nat) : Int) = n
      ∧ (((pushButton b w n : List (Event Button Dpad)).count
            (.releaseButton b) : Nat) : Int) = n
      ∧ (pushButton b w n : List (Event Button Dpad)).filter isButtonEvent
          = repeatTrace n.toNat [.pressButton b, .releaseButton b]
      ∧ (∀ e ∈ (pushButton b w n : List (Event Button Dpad)), ∀ c : Button,
          e = .pressButton c ∨ e = .releaseButton c → c = b)
      ∧ totalDelay (pushButton b w n : List (Event Button Dpad))
          = n * (100 + w) := by
  have hcast : ((n.toNat : Nat) : Int) = n := Int.toNat_of_nonneg hn
  have htr : (pushButton b w n : List (Event Button Dpad))
      = repeatTrace n.toNat
          [.pressButton b, .delay 100, .releaseButton b, .delay w] := by
    unfold pushButton
    rw [forLoop_zero]
    rfl
  refine ⟨htr, ?_, ?_, ?_, ?_, ?_⟩
  · rw [htr, count_repeatTrace]
    simp [hcast]
  · rw [htr, count_repeatTrace]
    simp [hcast]
  · rw [htr, filter_repeatTrace]
    simp [isButtonEvent]
  · intro e he c hc
    rw [htr] at he
    have hmem := mem_repeatTrace he
    simp only [List.mem_cons, List.mem_singleton, List.not_mem_nil, or_false] at hmem
    rcases hmem with h | h | h | h <;> rcases hc with hc | hc <;>
      rw [h] at hc <;> first | cases hc; rfl | cases hc
  · rw [htr, totalDelay_repeatTrace, hcast]
    simp [totalDelay]

/-- Witness of C1 at two presses of button `7` with a 30 ms wait. -/
theorem pushButton_trace_witness :
    (0 : Int) ≤ 2
      ∧ (pushButton (7 : Nat) 30 2 : List (Event Nat Nat))
          = repeatTrace (2 : Int).toNat
              [.pressButton 7, .delay 100, .releaseButton 7, .delay 30]
      ∧ totalDelay (pushButton (7 : Nat) 30 2 : List (Event Nat Nat))
          = 2 * (100 + 30) :=
  ⟨by decide, (pushButton_trace (7 : Nat) 30 2 (by decide)).1,
    (pushButton_trace (7 : Nat) 30 2 (by decide)).2.2.2.2.2⟩

/-- C2: for every direction `d`, every `wait_msec` `w`, every
`pushing_time_msec` `p` and every `loop_count` `n >= 0`, `pushDpad d w p n`
issues exactly `n` repetitions of
`[pressDpad d, delay p, releaseDpad, delay w]`; hence `n` set-direction and
`n` clear-to-neutral calls, alternating set-then-clear, and delays that sum to
`n * (p + w)`. -/
theorem pushDpad_trace [DecidableEq Button] [DecidableEq Dpad]
    (d : Dpad) (w p n : Int) (hn : 0 ≤ n) :
    (pushDpad d w p n : List (Event Button Dpad))
        = repeatTrace n.toNat
            [.pressDpad d, .delay p, .releaseDpad, .delay w]
      ∧ (((pushDpad d w p n : List (Event Button Dpad)).count
            (.pressDpad d) : Nat) : Int) = n
      ∧ (((pushDpad d w p n : List (Event Button Dpad)).count
            .releaseDpad : Nat) : Int) = n
      ∧ (pushDpad d w p n : List (Event Button Dpad)).filter isDpadEvent
          = repeatTrace n.toNat [.pressDpad d, .releaseDpad]
      ∧ totalDelay (pushDpad d w p n : List (Event Button Dpad))
          = n * (p + w) := by
  have hcast : ((n.toNat : Nat) : Int) = n := Int.toNat_of_nonneg hn
  have htr : (pushDpad d w p n : List (Event Button Dpad))
      = repeatTrace n.toNat
          [.pressDpad d, .delay p, .releaseDpad, .delay w] := by
    unfold pushDpad
    rw [forLoop_zero]
  refine ⟨htr, ?_, ?_, ?_, ?_⟩
  · rw [htr, count_repeatTrace]
    simp [hcast]
  · rw [htr, count_repeatTrace]
    simp [hcast]
  · rw [htr, filter_repeatTrace]
    simp [isDpadEvent]
  · rw [htr, totalDelay_repeatTrace, hcast]
    simp [totalDelay]

/-- Witness of C2 at three presses of direction `4`, held 250 ms, 40 ms apart. -/
theorem pushDpad_trace_witness :
    (0 : Int) ≤ 3
      ∧ (pushDpad (4 : Nat) 40 250 3 : List (Event Nat Nat))
          = repeatTrace (3 : Int).toNat
              [.pressDpad 4, .delay 250, .releaseDpad, .delay 40]
      ∧ totalDelay (pushDpad (4 : Nat) 40 250 3 : List (Event Nat Nat))
          = 3 * (250 + 40) :=
  ⟨by decide, (pushDpad_trace (4 : Nat) 40 250 3 (by decide)).1,
    (pushDpad_trace (4 : Nat) 40 250 3 (by decide)).2.2.2.2⟩

/-- C9: for every count `n >= 0`, `flash n` issues exactly `n` repetitions of
`[RXLED1, delay 100, RXLED0, delay 100]` (LED on, wait, LED off, wait); hence
`n` on/off pairs in on-then-off order, no controller event, and delays that sum
to `200 * n`. -/
theorem flash_trace [DecidableEq Button] [DecidableEq Dpad] (n : Int)
    (hn : 0 ≤ n) :
    (flash n : List (Event Button Dpad))
        = repeatTrace n.toNat [.RXLED1, .delay 100, .RXLED0, .delay 100]
      ∧ (((flash n : List (Event Button Dpad)).count .RXLED1 : Nat) : Int) = n
      ∧ (((flash n : List (Event Button Dpad)).count .RXLED0 : Nat) : Int) = n
      ∧ (flash n : List (Event Button Dpad)).filter isLedEvent
          = repeatTrace n.toNat [.RXLED1, .RXLED0]
      ∧ (∀ e ∈ (flash n : List (Event Button Dpad)), isControllerEvent e = false)
      ∧ totalDelay (flash n : List (Event Button Dpad)) = 200 * n := by
  have hcast : ((n.toNat : Nat) : Int) = n := Int.toNat_of_nonneg hn
  have htr : (flash n : List (Event Button Dpad))
      = repeatTrace n.toNat [.RXLED1, .delay 100, .RXLED0, .delay 100] := by
    unfold flash
    rw [forLoop_zero]
    rfl
  refine ⟨htr, ?_, ?_, ?_, ?_, ?_⟩
  · rw [htr, count_repeatTrace]
    simp [hcast]
  · rw [htr, count_repeatTrace]
    simp [hcast]
  · rw [htr, filter_repeatTrace]
    simp [isLedEvent]
  · intro e he
    rw [htr] at he
    have hmem := mem_repeatTrace he
    simp only [List.mem_cons, List.mem_singleton, List.not_mem_nil, or_false] at hmem
    rcases hmem with h | h | h | h <;> rw [h] <;> rfl
  · rw [htr, totalDelay_repeatTrace, hcast]
    simp [totalDelay]
    ring

/-- Witness of C9 at five blinks. -/
theorem flash_trace_witness :
    (0 : Int) ≤ 5
      ∧ (flash 5 : List (Event Nat Nat))
          = repeatTrace (5 : Int).toNat [.RXLED1, .delay 100, .RXLED0, .delay 100]
      ∧ totalDelay (flash 5 : List (Event Nat Nat)) = 200 * 5 :=
  ⟨by decide, (@flash_trace Nat Nat _ _ 5 (by decide)).1,
    (@flash_trace Nat Nat _ _ 5 (by decide)).2.2.2.2.2⟩

end Trains

/-! ## Stick tilts -/

section Tilts

variable {Button Dpad : Type}

/-- C3: for all integers `lx ly rx ry` (no range restriction) and every
duration `t`, `tiltJoystick lx ly rx ry t` issues exactly
`[setStickTiltRatio lx ly rx ry, delay t, setStickTiltRatio 0 0 0 0, delay 100]`:
one set-displacement call with the arguments unchanged, the reset to zero after
`t`, and no button or D-pad event. -/
theorem tiltJoystick_trace (lx ly rx ry t : Int) :
    (tiltJoystick lx ly rx ry t : List (Event Button Dpad))
        = [.setStickTiltRatio lx ly rx ry, .delay t,
           .setStickTiltRatio 0 0 0 0, .delay 100]
      ∧ (tiltJoystick lx ly rx ry t : List (Event Button Dpad)).filter isStickEvent
          = [.setStickTiltRatio lx ly rx ry, .setStickTiltRatio 0 0 0 0]
      ∧ (∀ e ∈ (tiltJoystick lx ly rx ry t : List (Event Button Dpad)),
          isButtonEvent e = false ∧ isDpadEvent e = false) := by
  refine ⟨rfl, rfl, ?_⟩
  intro e he
  simp only [tiltJoystick, List.mem_cons, List.mem_singleton, List.not_mem_nil,
    or_false] at he
  rcases he with h | h | h | h <;> rw [h] <;> exact ⟨rfl, rfl⟩

/-- C4: for every non-negative `tilting_time_msec` `t` and every button `b`,
`tiltJoystickAsMashButton` issues exactly `t / 100` (floor) pairs
`[pressButton b, delay 50, releaseButton b, delay 50]`, all between the
set-displacement call and the reset to zero; for `t = k * 100` with `k >= 1`
that is exactly `k` pairs. -/
theorem tiltJoystickAsMashButton_pairs [DecidableEq Button] [DecidableEq Dpad]
    (p : IntSize) (lx ly rx ry : Int) (b : Button) (t : Int)
    (hint : IsInt p t) (ht : 0 ≤ t) :
    (tiltJoystickAsMashButton p lx ly rx ry b t : List (Event Button Dpad))
        = [.setStickTiltRatio lx ly rx ry]
            ++ repeatTrace (t / 100).toNat
                [.pressButton b, .delay 50, .releaseButton b, .delay 50]
            ++ [.setStickTiltRatio 0 0 0 0, .delay 100]
      ∧ (((tiltJoystickAsMashButton p lx ly rx ry b t :
            List (Event Button Dpad)).count (.pressButton b) : Nat) : Int) = t / 100
      ∧ (((tiltJoystickAsMashButton p lx ly rx ry b t :
            List (Event Button Dpad)).count (.releaseButton b) : Nat) : Int) = t / 100
      ∧ (tiltJoystickAsMashButton p lx ly rx ry b t :
            List (Event Button Dpad)).filter isButtonEvent
          = repeatTrace (t / 100).toNat [.pressButton b, .releaseButton b]
      ∧ (tiltJoystickAsMashButton p lx ly rx ry b t :
            List (Event Button Dpad)).filter isStickEvent
          = [.setStickTiltRatio lx ly rx ry, .setStickTiltRatio 0 0 0 0]
      ∧ (∀ k : Int, 1 ≤ k → t = k * 100 →
          (tiltJoystickAsMashButton p lx ly rx ry b t : List (Event Button Dpad))
            = [.setStickTiltRatio lx ly rx ry]
                ++ repeatTrace k.toNat
                    [.pressButton b, .delay 50, .releaseButton b, .delay 50]
                ++ [.setStickTiltRatio 0 0 0 0, .delay 100]) := by
  have hq : 0 ≤ t / 100 := Int.ediv_nonneg ht (by decide)
  have hcast : (((t / 100).toNat : Nat) : Int) = t / 100 := Int.toNat_of_nonneg hq
  have htr : (tiltJoystickAsMashButton p lx ly rx ry b t : List (Event Button Dpad))
      = [.setStickTiltRatio lx ly rx ry]
          ++ repeatTrace (t / 100).toNat
              [.pressButton b, .delay 50, .releaseButton b, .delay 50]
          ++ [.setStickTiltRatio 0 0 0 0, .delay 100] := by
    rw [mash_shape, mashLoopBound_of_nonneg p t hint ht]
  refine ⟨htr, ?_, ?_, ?_, ?_, ?_⟩
  · rw [htr, List.count_append, List.count_append, count_repeatTrace]
    simp [hcast]
  · rw [htr, List.count_append, List.count_append, count_repeatTrace]
    simp [hcast]
  · rw [htr, List.filter_append, List.filter_append, filter_repeatTrace]
    simp [isButtonEvent]
  · rw [htr, List.filter_append, List.filter_append, filter_repeatTrace]
    simp [isStickEvent, repeatTrace]
    generalize (t / 100).toNat = m
    induction m with
    | zero => rfl
    | succ m ih => simpa [repeatTrace] using ih
  · intro k _ hk
    rw [htr, hk, Int.mul_ediv_cancel k (by decide)]

/-- Witness of C4 at `t = 250` on a 16-bit `int`: two pairs. -/
theorem tiltJoystickAsMashButton_pairs_witness :
    IsInt .i16 250 ∧ (0 : Int) ≤ 250
      ∧ (tiltJoystickAsMashButton .i16 100 0 0 (-100) (3 : Nat) 250 :
            List (Event Nat Nat))
          = [.setStickTiltRatio 100 0 0 (-100)]
              ++ repeatTrace ((250 : Int) / 100).toNat
                  [.pressButton 3, .delay 50, .releaseButton 3, .delay 50]
              ++ [.setStickTiltRatio 0 0 0 0, .delay 100] :=
  ⟨by decide, by decide,
    (tiltJoystickAsMashButton_pairs .i16 100 0 0 (-100) (3 : Nat) 250
      (by decide) (by decide)).1⟩

/-- C5, as the code has it: for every `t` with `0 <= t < 100` (either width
of `int`), and for every `t < 100`, negative ones included, where `int` has 32
bits, `tiltJoystickAsMashButton` issues no button event; the event list is
exactly `[setStickTiltRatio lx ly rx ry, setStickTiltRatio 0 0 0 0, delay 100]`. -/
theorem tiltJoystickAsMashButton_short (p : IntSize) (lx ly rx ry : Int)
    (b : Button) (t : Int) (ht : t < 100) (hp : 0 ≤ t ∨ p = .i32) :
    (tiltJoystickAsMashButton p lx ly rx ry b t : List (Event Button Dpad))
        = [.setStickTiltRatio lx ly rx ry, .setStickTiltRatio 0 0 0 0, .delay 100]
      ∧ (tiltJoystickAsMashButton p lx ly rx ry b t :
            List (Event Button Dpad)).filter isButtonEvent = [] := by
  have hbound : mashLoopBound p t ≤ 0 := by
    cases p with
    | i16 =>
      have h0 : 0 ≤ t := by
        rcases hp with h | h
        · exact h
        · cases h
      have hmod : t % 2 ^ 16 = t := Int.emod_eq_of_lt h0 (by omega)
      simp only [mashLoopBound, DEFAULT_DELAY_MSEC, hmod]
      omega
    | i32 => exact mashLoopBound_i32_nonpos t ht
  have hzero : (mashLoopBound p t).toNat = 0 := by omega
  have htr : (tiltJoystickAsMashButton p lx ly rx ry b t : List (Event Button Dpad))
      = [.setStickTiltRatio lx ly rx ry, .setStickTiltRatio 0 0 0 0, .delay 100] := by
    rw [mash_shape, hzero]
    rfl
  exact ⟨htr, by rw [htr]; rfl⟩

/-- Witness of the amended C5 at `t = 99` on a 16-bit `int`. -/
theorem tiltJoystickAsMashButton_short_witness :
    (99 : Int) < 100 ∧ ((0 : Int) ≤ 99 ∨ IntSize.i16 = IntSize.i32)
      ∧ (tiltJoystickAsMashButton .i16 10 20 30 40 (3 : Nat) 99 :
            List (Event Nat Nat))
          = [.setStickTiltRatio 10 20 30 40, .setStickTiltRatio 0 0 0 0, .delay 100] :=
  ⟨by decide, Or.inl (by decide),
    (tiltJoystickAsMashButton_short .i16 10 20 30 40 (3 : Nat) 99 (by decide)
      (Or.inl (by decide))).1⟩

/-- C5 as stated fails where `int` has 16 bits: `t = -1` is an `int` below 100,
`-1 / DEFAULT_DELAY_MSEC` is the unsigned quotient `65535 / 100 = 655`, and the
mash loop presses and releases the button 655 times. -/
theorem tiltJoystickAsMashButton_negative_i16 :
    IsInt .i16 (-1) ∧ (-1 : Int) < 100
      ∧ (tiltJoystickAsMashButton .i16 10 20 30 40 (3 : Nat) (-1) :
            List (Event Nat Nat))
          = [.setStickTiltRatio 10 20 30 40]
              ++ repeatTrace 655
                  [.pressButton 3, .delay 50, .releaseButton 3, .delay 50]
              ++ [.setStickTiltRatio 0 0 0 0, .delay 100]
      ∧ (tiltJoystickAsMashButton .i16 10 20 30 40 (3 : Nat) (-1) :
            List (Event Nat Nat))
          ≠ [.setStickTiltRatio 10 20 30 40, .setStickTiltRatio 0 0 0 0, .delay 100]
      ∧ ((tiltJoystickAsMashButton .i16 10 20 30 40 (3 : Nat) (-1) :
            List (Event Nat Nat)).filter isButtonEvent).length = 1310 := by
  have hb : mashLoopBound .i16 (-1) = 655 := by decide
  have htr : (tiltJoystickAsMashButton .i16 10 20 30 40 (3 : Nat) (-1) :
        List (Event Nat Nat))
      = [.setStickTiltRatio 10 20 30 40]
          ++ repeatTrace 655
              [.pressButton 3, .delay 50, .releaseButton 3, .delay 50]
          ++ [.setStickTiltRatio 0 0 0 0, .delay 100] := by
    rw [mash_shape, hb]
    rfl
  refine ⟨by decide, by decide, htr, ?_, ?_⟩
  · rw [htr]
    intro h
    have hlen := congrArg List.length h
    rw [show (655 : Nat) = 654 + 1 from rfl, repeatTrace] at hlen
    simp at hlen
  · rw [htr, List.filter_append, List.filter_append, filter_repeatTrace]
    have hl : ∀ m : Nat, (repeatTrace m
        ([.pressButton 3, .releaseButton 3] : List (Event Nat Nat))).length
          = 2 * m := by
      intro m
      induction m with
      | zero => rfl
      | succ m ih => simp only [repeatTrace, List.length_append, ih]; simp; omega
    have hf : ([.pressButton 3, .delay 50, .releaseButton 3, .delay 50] :
        List (Event Nat Nat)).filter isButtonEvent
          = [.pressButton 3, .releaseButton 3] := rfl
    rw [hf, List.length_append, List.length_append, hl]
    rfl

/-- C6, as the code has it: for every `t >= 0`, `tiltJoystickAsMashButton` and
its left-only and right-only variants hold the stick tilted for
`100 * (t / 100)` milliseconds (floor): that is the sum of the delays issued
between the set-displacement call and the reset to zero.  It is at most `t`,
and it is `t` exactly when 100 divides `t`. -/
theorem mash_variants_hold (p : IntSize) (lx ly rx ry : Int) (b : Button)
    (t : Int) (hint : IsInt p t) (ht : 0 ≤ t) :
    holdTime (tiltJoystickAsMashButton p lx ly rx ry b t : List (Event Button Dpad))
        = 100 * (t / 100)
      ∧ holdTime (tiltLeftJoystickAsMashButton p lx ly b t :
            List (Event Button Dpad)) = 100 * (t / 100)
      ∧ holdTime (tiltRightJoystickAsMashButton p rx ry b t :
            List (Event Button Dpad)) = 100 * (t / 100)
      ∧ 100 * (t / 100) ≤ t
      ∧ (100 * (t / 100) = t ↔ (100 : Int) ∣ t) := by
  have hq : 0 ≤ t / 100 := Int.ediv_nonneg ht (by decide)
  have hgen : ∀ a c d e : Int,
      holdTime (tiltJoystickAsMashButton p a c d e b t : List (Event Button Dpad))
        = 100 * (t / 100) := by
    intro a c d e
    rw [holdTime_mash, mashLoopBound_of_nonneg p t hint ht, Int.toNat_of_nonneg hq]
  refine ⟨hgen lx ly rx ry, hgen lx ly 0 0, hgen 0 0 rx ry, ?_, ?_⟩
  · omega
  · omega

/-- Witness of the amended C6 at `t = 300` on a 16-bit `int`: the three mash
routines hold the stick for 300 ms. -/
theorem mash_variants_hold_witness :
    IsInt .i16 300 ∧ (0 : Int) ≤ 300
      ∧ holdTime (tiltJoystickAsMashButton .i16 100 0 0 (-100) (3 : Nat) 300 :
          List (Event Nat Nat)) = 100 * (300 / 100)
      ∧ holdTime (tiltLeftJoystickAsMashButton .i16 100 0 (3 : Nat) 300 :
          List (Event Nat Nat)) = 100 * (300 / 100)
      ∧ holdTime (tiltRightJoystickAsMashButton .i16 0 (-100) (3 : Nat) 300 :
          List (Event Nat Nat)) = 100 * (300 / 100) :=
  ⟨by decide, by decide,
    (mash_variants_hold .i16 100 0 0 (-100) (3 : Nat) 300 (by decide)
      (by decide)).1,
    (mash_variants_hold .i16 100 0 0 (-100) (3 : Nat) 300 (by decide)
      (by decide)).2.1,
    (mash_variants_hold .i16 100 0 0 (-100) (3 : Nat) 300 (by decide)
      (by decide)).2.2.1⟩

/-- C6 as stated fails at `t = 150`, a non-negative `int` under both widths:
each of the three mash routines holds the stick for 100 ms, not for 150 ms. -/
theorem mash_hold_at_150 :
    IsInt .i16 150 ∧ IsInt .i32 150 ∧ (0 : Int) ≤ 150
      ∧ holdTime (tiltJoystickAsMashButton .i16 100 0 0 0 (3 : Nat) 150 :
          List (Event Nat Nat)) = 100
      ∧ holdTime (tiltLeftJoystickAsMashButton .i16 100 0 (3 : Nat) 150 :
          List (Event Nat Nat)) = 100
      ∧ holdTime (tiltRightJoystickAsMashButton .i16 100 0 (3 : Nat) 150 :
          List (Event Nat Nat)) = 100
      ∧ holdTime (tiltJoystickAsMashButton .i32 100 0 0 0 (3 : Nat) 150 :
          List (Event Nat Nat)) = 100
      ∧ holdTime (tiltLeftJoystickAsMashButton .i32 100 0 (3 : Nat) 150 :
          List (Event Nat Nat)) = 100
      ∧ holdTime (tiltRightJoystickAsMashButton .i32 100 0 (3 : Nat) 150 :
          List (Event Nat Nat)) = 100
      ∧ holdTime (tiltJoystickAsMashButton .i16 100 0 0 0 (3 : Nat) 150 :
          List (Event Nat Nat)) ≠ 150 := by
  have hb : ∀ p : IntSize, mashLoopBound p 150 = 1 := by
    intro p
    cases p <;> decide
  have h1 : ∀ (p : IntSize) (a c d e : Int),
      holdTime (tiltJoystickAsMashButton p a c d e (3 : Nat) 150 :
        List (Event Nat Nat)) = 100 := by
    intro p a c d e
    rw [holdTime_mash, hb p]
    rfl
  refine ⟨by decide, by decide, by decide, h1 .i16 100 0 0 0, h1 .i16 100 0 0 0,
    h1 .i16 0 0 100 0, h1 .i32 100 0 0 0, h1 .i32 100 0 0 0, h1 .i32 0 0 100 0, ?_⟩
  rw [h1 .i16 100 0 0 0]
  decide

/-- C7: each single-stick routine issues the same events as the general
routine with the other stick at zero. -/
theorem single_stick_eq_general (p : IntSize) (x y t : Int) (b : Button) :
    (tiltLeftJoystick x y t : List (Event Button Dpad))
        = tiltJoystick x y 0 0 t
      ∧ (tiltRightJoystick x y t : List (Event Button Dpad))
        = tiltJoystick 0 0 x y t
      ∧ (tiltLeftJoystickAsMashButton p x y b t : List (Event Button Dpad))
        = tiltJoystickAsMashButton p x y 0 0 b t
      ∧ (tiltRightJoystickAsMashButton p x y b t : List (Event Button Dpad))
        = tiltJoystickAsMashButton p 0 0 x y b t :=
  ⟨rfl, rfl, rfl, rfl⟩

/-- C8: each of the six tilt routines, called with all displacements `0` and
any duration, issues only set-displacement calls carrying `(0, 0, 0, 0)`; a
sink whose recorded stick state is `(0, 0, 0, 0)` before the call has that
state after every prefix of the call's events and after the call. -/
theorem tilt_zero_keeps_neutral (p : IntSize) (b : Button) (t : Int) :
    KeepsNeutral (tiltJoystick 0 0 0 0 t : List (Event Button Dpad))
      ∧ KeepsNeutral (tiltLeftJoystick 0 0 t : List (Event Button Dpad))
      ∧ KeepsNeutral (tiltRightJoystick 0 0 t : List (Event Button Dpad))
      ∧ KeepsNeutral
          (tiltJoystickAsMashButton p 0 0 0 0 b t : List (Event Button Dpad))
      ∧ KeepsNeutral
          (tiltLeftJoystickAsMashButton p 0 0 b t : List (Event Button Dpad))
      ∧ KeepsNeutral
          (tiltRightJoystickAsMashButton p 0 0 b t : List (Event Button Dpad)) := by
  have hplain : KeepsNeutral (tiltJoystick 0 0 0 0 t : List (Event Button Dpad)) := by
    apply keepsNeutral_of_forall
    intro e he lx ly rx ry heq
    simp only [tiltJoystick, List.mem_cons, List.mem_singleton, List.not_mem_nil,
      or_false] at he
    rcases he with h | h | h | h <;> rw [h] at heq <;> cases heq <;>
      exact ⟨rfl, rfl, rfl, rfl⟩
  have hmash : KeepsNeutral
      (tiltJoystickAsMashButton p 0 0 0 0 b t : List (Event Button Dpad)) := by
    unfold tiltJoystickAsMashButton
    rw [forLoop_zero]
    exact keepsNeutral_mash _ b
  exact ⟨hplain, hplain, hplain, hmash, hmash, hmash⟩

/-- C10: for every `t >= 0` the stick hold time `H` of
`tiltJoystickAsMashButton` is `100 * (t / 100)` (floor), so `t - 100 < H <= t`
and `H = t` exactly when 100 divides `t`; the delays of the whole call sum to
`H + 100`.  `tiltJoystick` with the same `t` holds for `t` and its delays sum
to `t + 100`. -/
theorem mash_hold_time (p : IntSize) (lx ly rx ry : Int) (b : Button) (t : Int)
    (hint : IsInt p t) (ht : 0 ≤ t) :
    holdTime (tiltJoystickAsMashButton p lx ly rx ry b t : List (Event Button Dpad))
        = 100 * (t / 100)
      ∧ t - 100
        < holdTime (tiltJoystickAsMashButton p lx ly rx ry b t :
            List (Event Button Dpad))
      ∧ holdTime (tiltJoystickAsMashButton p lx ly rx ry b t :
            List (Event Button Dpad)) ≤ t
      ∧ (holdTime (tiltJoystickAsMashButton p lx ly rx ry b t :
            List (Event Button Dpad)) = t ↔ (100 : Int) ∣ t)
      ∧ totalDelay (tiltJoystickAsMashButton p lx ly rx ry b t :
            List (Event Button Dpad))
          = holdTime (tiltJoystickAsMashButton p lx ly rx ry b t :
              List (Event Button Dpad)) + 100
      ∧ holdTime (tiltJoystick lx ly rx ry t : List (Event Button Dpad)) = t
      ∧ totalDelay (tiltJoystick lx ly rx ry t : List (Event Button Dpad))
          = t + 100 := by
  have hq : 0 ≤ t / 100 := Int.ediv_nonneg ht (by decide)
  have hH : holdTime (tiltJoystickAsMashButton p lx ly rx ry b t :
      List (Event Button Dpad)) = 100 * (t / 100) := by
    rw [holdTime_mash, mashLoopBound_of_nonneg p t hint ht, Int.toNat_of_nonneg hq]
  have htot : totalDelay (tiltJoystickAsMashButton p lx ly rx ry b t :
      List (Event Button Dpad)) = 100 * (t / 100) + 100 := by
    rw [mash_shape, mashLoopBound_of_nonneg p t hint ht, totalDelay_append,
      totalDelay_append, totalDelay_repeatTrace, Int.toNat_of_nonneg hq]
    simp [totalDelay]
    ring
  refine ⟨hH, ?_, ?_, ?_, ?_, ?_, ?_⟩
  · rw [hH]; omega
  · rw [hH]; omega
  · rw [hH]; omega
  · rw [hH, htot]
  · simp [holdTime, tiltJoystick, afterFirstStick, delayUntilStick]
  · simp [tiltJoystick, totalDelay, DEFAULT_DELAY_MSEC]

/-- Witness of C10 at `t = 250` on a 32-bit `int`: the hold time is 200 ms. -/
theorem mash_hold_time_witness :
    IsInt .i32 250 ∧ (0 : Int) ≤ 250
      ∧ holdTime (tiltJoystickAsMashButton .i32 100 0 0 0 (3 : Nat) 250 :
          List (Event Nat Nat)) = 100 * (250 / 100) :=
  ⟨by decide, by decide,
    (mash_hold_time .i32 100 0 0 0 (3 : Nat) 250 (by decide) (by decide)).1⟩

end Tilts

end SwitchControllerUtil
